import Mathlib

set_option maxRecDepth 8192

/-!
Verification of the `hagiwo-mod2-stuff` tools.

The repository holds three Python scripts:
* `src/kick/tools/convert.py` — CLI WAV → comma-separated `0xHH` text converter;
* `src/kick/tools/wav_table_gen_v1.py` — GUI variant of the same converter;
* `src/kick/tools/split_samples.py` — splits a header with several
  `const uint8_t sampleN[] PROGMEM = {...};` arrays into per-array headers
  plus a master index header.

This file gives a shallow embedding of the pure transformation cores of the
three scripts (the file-system and dialog I/O is represented by the values the
scripts compute and write), and settles the frozen claims about them.
-/

/-- A byte, as yielded by iterating over a Python `bytes` object. -/
abbrev Byte := Fin 256

/-- The digit characters produced by Python's `%X` format: `0`–`9` then `A`–`F`. -/
def hexDigitChar (n : Nat) : Char :=
  if n < 10 then Char.ofNat (48 + n) else Char.ofNat (55 + n)

/-- Python `f"0x{b:02X}"` for a byte `b`: since `b < 256`, the `02X` field is
exactly the two upper-case hex digits of `b`. -/
def hexByte (b : Byte) : String :=
  ⟨['0', 'x', hexDigitChar (b.val / 16), hexDigitChar (b.val % 16)]⟩

/-- Python `sep.join(l)`: the elements of `l` interleaved with `sep`;
`""` on the empty list. -/
def pyJoin (sep : String) : List String → String
  | [] => ""
  | [a] => a
  | a :: b :: t => a ++ sep ++ pyJoin sep (b :: t)

/-- `convert.py` line 44 / `wav_table_gen_v1.py` line 53:
`hex_line = ",".join(f"0x{b:02X}" for b in raw_bytes)`. -/
def hexLine (bytes : List Byte) : String :=
  pyJoin "," (bytes.map hexByte)

theorem hexByte_length (b : Byte) : (hexByte b).length = 4 := by
  cases b with
  | mk v h => rfl

theorem pyJoin_length (sep : String) (l : List String) (h : l ≠ []) :
    (pyJoin sep l).length
      = (l.map String.length).sum + (l.length - 1) * sep.length := by
  induction l with
  | nil => exact absurd rfl h
  | cons a t ih =>
    cases t with
    | nil => simp [pyJoin]
    | cons b t' =>
      have ih' := ih (by simp)
      simp only [pyJoin, String.length_append, List.map_cons, List.sum_cons,
        List.length_cons, Nat.add_sub_cancel, Nat.add_mul, Nat.one_mul] at ih' ⊢
      omega

theorem sum_length_hexByte (bytes : List Byte) :
    ((bytes.map hexByte).map String.length).sum = 4 * bytes.length := by
  induction bytes with
  | nil => simp
  | cons b t iht =>
    simp only [List.map_cons, List.sum_cons, hexByte_length, List.length_cons,
      iht, Nat.mul_add, Nat.mul_one]
    omega

theorem hexLine_length (bytes : List Byte) (h : bytes ≠ []) :
    (hexLine bytes).length = 4 * bytes.length + (bytes.length - 1) := by
  have hmap : bytes.map hexByte ≠ [] := by
    simp [h]
  have hj := pyJoin_length "," (bytes.map hexByte) hmap
  rw [hexLine, hj, sum_length_hexByte]
  have hone : (",").length = 1 := rfl
  rw [hone, Nat.mul_one]
  simp

theorem mem_pyJoin_data (sep : String) (l : List String) (c : Char)
    (hc : c ∈ (pyJoin sep l).data) :
    c ∈ sep.data ∨ ∃ s ∈ l, c ∈ s.data := by
  induction l with
  | nil => simp [pyJoin] at hc
  | cons a t ih =>
    cases t with
    | nil =>
      exact Or.inr ⟨a, by simp, hc⟩
    | cons b t' =>
      simp only [pyJoin, String.data_append, List.mem_append] at hc
      rcases hc with (ha | hs) | hrest
      · exact Or.inr ⟨a, by simp, ha⟩
      · exact Or.inl hs
      · rcases ih hrest with hs | ⟨s, hsmem, hcs⟩
        · exact Or.inl hs
        · exact Or.inr ⟨s, by simp [hsmem], hcs⟩

theorem hexDigitChar_mem (n : Nat) (h : n < 16) :
    hexDigitChar n ∈ ("0123456789ABCDEF").data := by
  interval_cases n <;> decide

theorem byte_div_lt (b : Byte) : b.val / 16 < 16 := by
  have := b.isLt
  omega

theorem byte_mod_lt (b : Byte) : b.val % 16 < 16 := by
  omega

theorem hexByte_chars (b : Byte) (c : Char) (hc : c ∈ (hexByte b).data) :
    c = '0' ∨ c = 'x' ∨ c ∈ ("0123456789ABCDEF").data := by
  have h1 := hexDigitChar_mem _ (byte_div_lt b)
  have h2 := hexDigitChar_mem _ (byte_mod_lt b)
  simp only [hexByte, List.mem_cons, List.not_mem_nil, or_false] at hc
  rcases hc with rfl | rfl | rfl | rfl
  · exact Or.inl rfl
  · exact Or.inr (Or.inl rfl)
  · exact Or.inr (Or.inr h1)
  · exact Or.inr (Or.inr h2)

theorem hexLine_no_newline (bytes : List Byte) (c : Char)
    (hc : c ∈ (hexLine bytes).data) : c ≠ '\n' := by
  rcases mem_pyJoin_data "," (bytes.map hexByte) c hc with hs | ⟨s, hsmem, hcs⟩
  · intro h
    rw [h] at hs
    revert hs
    decide
  · rcases List.mem_map.mp hsmem with ⟨b, _, rfl⟩
    rcases hexByte_chars b c hcs with rfl | rfl | hmem
    · decide
    · decide
    · intro h
      rw [h] at hmem
      revert hmem
      decide

theorem hexLine_last_not_comma (bytes : List Byte) (h : bytes ≠ []) :
    (hexLine bytes).data.getLast? ≠ some ',' := by
  induction bytes with
  | nil => exact absurd rfl h
  | cons b t ih =>
    cases t with
    | nil =>
      have : (hexLine [b]).data.getLast? = some (hexDigitChar (b.val % 16)) := by
        simp [hexLine, pyJoin, hexByte]
      rw [this]
      have hb : hexDigitChar (b.val % 16) ≠ ',' := by
        have hmem := hexDigitChar_mem _ (byte_mod_lt b)
        intro heq
        rw [heq] at hmem
        simp [String.data] at hmem
      simp [hb]
    | cons b' t' =>
      have hne : (hexLine (b' :: t')).data ≠ [] := by
        intro hnil
        have := hexLine_length (b' :: t') (by simp)
        rw [← String.length_data] at this
        simp [hnil] at this
        omega
      have hsplit : (hexLine (b :: b' :: t')).data
          = (hexByte b ++ ",").data ++ (hexLine (b' :: t')).data := by
        simp [hexLine, pyJoin, String.data_append]
      rw [hsplit, List.getLast?_append_of_ne_nil _ hne]
      exact ih (by simp)

/-! ## The WAV model

A `WavFile` records the header attributes that `wave.open` exposes together
with the raw frame data of the file. The `wave` module guarantees
`data.length = nframes * nchannels * sampwidth`; theorems that need this
carry it as a hypothesis. -/

/-- The attributes of an open `wave` reader: channel count, sample width in
bytes, compression tag, frame rate, total frame count, and the raw bytes. -/
structure WavFile where
  nchannels : Nat
  sampwidth : Nat
  comptype : String
  framerate : Nat
  nframes : Nat
  data : List Byte
deriving DecidableEq

/-- Which of the three format checks of `process_file` rejected the file. -/
inductive FormatError where
  | stereo
  | bitDepth
  | compressed
deriving DecidableEq

/-- Python `w.readframes(n)`: the first `n` frames, i.e. the first
`n * nchannels * sampwidth` raw bytes (fewer if the data runs out). -/
def readframes (w : WavFile) (n : Nat) : List Byte :=
  w.data.take (n * (w.nchannels * w.sampwidth))

namespace Convert

/-- `convert.py` line 12. -/
def MAX_FILES : Nat := 18

/-- `convert.py` line 13. -/
def MAX_SECONDS : Nat := 20

/-- `convert.py` line 40: `frames = min(rate * max_seconds, w.getnframes())`. -/
def framesToRead (w : WavFile) (maxSeconds : Nat) : Nat :=
  min (w.framerate * maxSeconds) w.nframes

/-- The conversion core of `process_file` (`convert.py` lines 27–48): the three
format checks, the duration truncation, and the hex encoding. The text written
to the output file is returned as the `.ok` value; each `sys.exit(1)` path is
an `.error`. -/
def processFile (w : WavFile) (maxSeconds : Nat) : Except FormatError String :=
  if w.nchannels ≠ 1 then .error .stereo
  else if w.sampwidth ≠ 2 then .error .bitDepth
  else if w.comptype ≠ "NONE" then .error .compressed
  else .ok (hexLine (readframes w (framesToRead w maxSeconds)))

/-- One CLI argument: whether the path exists on disk, and the WAV contents
behind it when it does. -/
structure InputFile where
  pathExists : Bool
  wav : WavFile
deriving DecidableEq

/-- The processing loop of `main` (`convert.py` lines 115–116): each file is
converted and its output written in turn; the first failing file calls
`sys.exit(1)`, keeping the outputs already written. Returns the written
outputs and whether the whole loop succeeded. -/
def processBatch (maxSeconds : Nat) : List InputFile → List String × Bool
  | [] => ([], true)
  | f :: fs =>
    if f.pathExists = false then ([], false)
    else
      match processFile f.wav maxSeconds with
      | .error _ => ([], false)
      | .ok s =>
        let r := processBatch maxSeconds fs
        (s :: r.1, r.2)

/-- `main` (`convert.py` lines 99–118): the file-count bound, the all-files
existence pre-check, then the processing loop. Result: the outputs written,
and the process exit status. The non-fatal `.wav`-extension warning (lines
111–112) affects neither component and is not modelled. -/
def main (files : List InputFile) (maxSeconds : Nat) : List String × Nat :=
  if files.length > MAX_FILES then ([], 1)
  else if files.all (fun f => f.pathExists) then
    let r := processBatch maxSeconds files
    (r.1, if r.2 then 0 else 1)
  else ([], 1)

/-- The argument names registered on the `argparse` parser in `main`
(`convert.py` lines 73–97): the positional `files`, the output-directory and
verbose flags, and the `--max-seconds` override. This list is exhaustive. -/
def cliOptionNames : List String :=
  ["files", "-o", "--output-dir", "-v", "--verbose", "--max-seconds"]

end Convert

namespace Gui

/-- `wav_table_gen_v1.py` line 12. -/
def MAX_FILES : Nat := 18

/-- `wav_table_gen_v1.py` line 13. -/
def MAX_SECONDS : Nat := 20

/-- The conversion core of the GUI `process_file` (`wav_table_gen_v1.py`
lines 40–54); the duration bound is the fixed constant `MAX_SECONDS`. -/
def processFile (w : WavFile) : Except FormatError String :=
  if w.nchannels ≠ 1 then .error .stereo
  else if w.sampwidth ≠ 2 then .error .bitDepth
  else if w.comptype ≠ "NONE" then .error .compressed
  else .ok (hexLine (readframes w (min (w.framerate * MAX_SECONDS) w.nframes)))

end Gui

/-! ## The `split_samples.py` model

The regex `findall` over the input blob yields a list of
`(array name, raw payload)` pairs; the embedding starts from that match list
and models the per-match cleaning, the skip test, the per-array header
generation and the master index generation of `extract_samples`. -/

namespace SplitSamples

/-- The whitespace characters of Python's `\s` class (ASCII range). -/
def pyIsSpace (c : Char) : Bool :=
  c = ' ' || c = '\t' || c = '\n' || c = '\r' || c = '\x0b' || c = '\x0c'

/-- Python `s.strip()`: drop whitespace from both ends. -/
def pyStrip (s : String) : String :=
  ⟨((s.data.dropWhile pyIsSpace).reverse.dropWhile pyIsSpace).reverse⟩

/-- Scanning for the end of a block comment opened by `/\x2a`: the regex body
`[^*]*\x2a/` consumes non-`*` characters and then requires `\x2a/` at the
first `*`; if that `*` is not followed by `/` there is no match at this
opening (backtracking cannot help, since `[^*]` never consumes a `*`). -/
def scanComment : List Char → Option (List Char)
  | [] => none
  | '*' :: '/' :: rest => some rest
  | '*' :: _ => none
  | _ :: rest => scanComment rest

/-- Leftmost, non-overlapping replacement of `re.sub(r'/\x2a[^*]*\x2a/', '', …)`
(`split_samples.py` line 28), with a fuel argument (the input length bounds
the number of scan steps, each of which consumes at least one character). -/
def removeCommentsFuel : Nat → List Char → List Char
  | 0, s => s
  | _ + 1, [] => []
  | fuel + 1, '/' :: '*' :: rest =>
    match scanComment rest with
    | some rest' => removeCommentsFuel fuel rest'
    | none => '/' :: removeCommentsFuel fuel ('*' :: rest)
  | fuel + 1, c :: rest => c :: removeCommentsFuel fuel rest

def removeComments (s : List Char) : List Char :=
  removeCommentsFuel s.length s

/-- `re.sub(r'\s+', ' ', …)` (`split_samples.py` line 29): every maximal
whitespace run becomes a single space. -/
def collapseSpaces : List Char → List Char
  | [] => []
  | [c] => if pyIsSpace c then [' '] else [c]
  | c :: d :: rest =>
    if pyIsSpace c then
      if pyIsSpace d then collapseSpaces (d :: rest)
      else ' ' :: d :: collapseSpaces rest
    else c :: collapseSpaces (d :: rest)

/-- `split_samples.py` lines 28–29: strip block comments, then strip the ends
and collapse internal whitespace. -/
def cleanData (s : String) : String :=
  ⟨collapseSpaces (pyStrip ⟨removeComments s.data⟩).data⟩

/-- Python `s.lower()` (ASCII range): lower-case each character. -/
def pyLower (s : String) : String :=
  ⟨s.data.map Char.toLower⟩

/-- Python `s.upper()` (ASCII range): upper-case each character. -/
def pyUpper (s : String) : String :=
  ⟨s.data.map Char.toUpper⟩

/-- Python `needle in hay` on strings: substring containment. -/
def listContains (needle : List Char) (hay : List Char) : Bool :=
  match hay with
  | [] => needle.isEmpty
  | _ :: rest => needle.isPrefixOf hay || listContains needle rest

/-- The skip test of `split_samples.py` line 32 on the cleaned payload:
empty, whitespace-only, or containing the placeholder marker
(case-insensitively). -/
def skipSample (cleaned : String) : Bool :=
  cleaned.isEmpty || (pyStrip cleaned).isEmpty
    || listContains ("placeholder").data (pyLower cleaned).data

/-- Python `s.split(', ')` (`split_samples.py` line 39), specialised to the
two-character separator: cut at each leftmost occurrence of `, `. -/
def splitCommaSpace : List Char → List (List Char)
  | [] => [[]]
  | ',' :: ' ' :: rest => [] :: splitCommaSpace rest
  | c :: rest =>
    match splitCommaSpace rest with
    | t :: ts => (c :: t) :: ts
    | [] => [[c]]

/-- The chunking of `range(0, len(hex_values), 16)`: `acc` is the current
line (reversed) and the counter is its remaining capacity. -/
def chunkGo : List String → List String → Nat → List (List String)
  | [], acc, _ => if acc = [] then [] else [acc.reverse]
  | x :: xs, acc, 0 => acc.reverse :: chunkGo xs [x] 15
  | x :: xs, acc, n + 1 => chunkGo xs (x :: acc) n

/-- `split_samples.py` lines 41–45: each chunk of 16 becomes a line indented
by four spaces; `i + 16 < len(hex_values)` adds the trailing comma exactly on
the lines that are not the last. -/
def formatLines : List (List String) → List String
  | [] => []
  | [chunk] => ["    " ++ pyJoin ", " chunk]
  | chunk :: rest => ("    " ++ pyJoin ", " chunk ++ ",") :: formatLines rest

/-- The reformatting of one cleaned payload (`split_samples.py` lines 39–47). -/
def formatChunks (hexValues : List String) : List String :=
  formatLines (chunkGo hexValues [] 16)

/-- The per-array header file content (`split_samples.py` lines 50–64). -/
def headerFile (sampleName : String) (cleaned : String) : String :=
  let upper := pyUpper sampleName
  let formattedData :=
    pyJoin "\n" (formatChunks ((splitCommaSpace cleaned.data).map List.asString))
  "#ifndef " ++ upper ++ "_H\n#define " ++ upper ++ "_H\n\n"
    ++ "#include <pgmspace.h>\n\n// Sample data for " ++ sampleName
    ++ "\nconst uint8_t " ++ sampleName ++ "[] PROGMEM = \x7b\n"
    ++ formattedData ++ "\n\x7d;\n\n// Sample length in 16-bit units\n#define "
    ++ upper ++ "_LEN ((uint32_t)(sizeof(" ++ sampleName ++ ") / 2))\n\n#endif // "
    ++ upper ++ "_H\n"

/-- The `#include` lines of the master file (`split_samples.py` lines 80–81). -/
def includeLines : List String → String
  | [] => ""
  | n :: rest => "#include \"" ++ n ++ ".h\"\n" ++ includeLines rest

/-- The `samples[]` entries (`split_samples.py` lines 88–89): a trailing comma
on every entry except the last. -/
def pointerLines : List String → String
  | [] => ""
  | [n] => "    " ++ n ++ "\n"
  | n :: rest => "    " ++ n ++ ",\n" ++ pointerLines rest

/-- The `sample_lengths[]` entries (`split_samples.py` lines 97–98). -/
def lengthLines : List String → String
  | [] => ""
  | [n] => "    " ++ pyUpper n ++ "_LEN\n"
  | n :: rest => "    " ++ pyUpper n ++ "_LEN,\n" ++ lengthLines rest

/-- The master index file content built from the valid sample names
(`split_samples.py` lines 74–105). -/
def masterContent (validSamples : List String) : String :=
  "#ifndef SAMPLES_H\n#define SAMPLES_H\n\n// Include all individual sample headers\n"
    ++ includeLines validSamples
    ++ "\n// Array of sample pointers for easy access\nconst uint8_t* const samples[] = \x7b\n"
    ++ pointerLines validSamples
    ++ "\x7d;\n\n// Array of sample lengths\nconst uint16_t sample_lengths[] = \x7b\n"
    ++ lengthLines validSamples
    ++ "\x7d;\n\n#define NUM_SAMPLES (sizeof(samples) / sizeof(samples[0]))\n\n#endif // SAMPLES_H\n"

/-- The outcome of the extraction loop: the valid sample names in first-seen
order, the per-array header files written (name and content), and the names
reported in skip notices. -/
structure ExtractResult where
  validSamples : List String
  artifacts : List (String × String)
  skipped : List String
deriving DecidableEq

/-- The per-match loop of `extract_samples` (`split_samples.py` lines 26–70)
over the regex matches: clean each payload, skip the empty/placeholder ones
with a notice, and emit a header file for each valid one. -/
def extractSamples : List (String × String) → ExtractResult
  | [] => ⟨[], [], []⟩
  | (sampleName, sampleData) :: rest =>
    let cleaned := cleanData sampleData
    let r := extractSamples rest
    if skipSample cleaned then
      ⟨r.validSamples, r.artifacts, sampleName :: r.skipped⟩
    else
      ⟨sampleName :: r.validSamples,
        (sampleName, headerFile sampleName cleaned) :: r.artifacts,
        r.skipped⟩

/-- The match list the declaration regex produces on a blob declaring
`sample1` with two real bytes and `sample2` with a placeholder payload. -/
def exampleMatches : List (String × String) :=
  [("sample1", "0x01, 0x02"), ("sample2", " placeholder ")]

end SplitSamples

/-! ## Helper lemmas -/

theorem chunkGo_of_length_le (l : List String) : ∀ (acc : List String) (n : Nat),
    l.length ≤ n →
    SplitSamples.chunkGo l acc n
      = if acc.reverse ++ l = [] then [] else [acc.reverse ++ l] := by
  induction l with
  | nil =>
    intro acc n _
    simp [SplitSamples.chunkGo]
  | cons x xs ih =>
    intro acc n h
    cases n with
    | zero => simp at h
    | succ k =>
      rw [SplitSamples.chunkGo, ih (x :: acc) k (by simp at h ⊢; omega)]
      simp

theorem chunkGo_of_lt (l : List String) : ∀ (acc : List String) (n : Nat),
    n < l.length →
    SplitSamples.chunkGo l acc n
      = (acc.reverse ++ l.take n) :: SplitSamples.chunkGo (l.drop n) [] 16 := by
  induction l with
  | nil =>
    intro acc n h
    simp at h
  | cons x xs ih =>
    intro acc n h
    cases n with
    | zero =>
      rw [SplitSamples.chunkGo]
      simp [SplitSamples.chunkGo]
    | succ k =>
      rw [SplitSamples.chunkGo, ih (x :: acc) k (by simp at h; omega)]
      simp

theorem extractSamples_filter (found : List (String × String)) :
    (SplitSamples.extractSamples found).validSamples
      = (found.filter
          (fun m => ! SplitSamples.skipSample (SplitSamples.cleanData m.2))).map Prod.fst
    ∧ (SplitSamples.extractSamples found).artifacts.map Prod.fst
      = (found.filter
          (fun m => ! SplitSamples.skipSample (SplitSamples.cleanData m.2))).map Prod.fst
    ∧ (SplitSamples.extractSamples found).skipped
      = (found.filter
          (fun m => SplitSamples.skipSample (SplitSamples.cleanData m.2))).map Prod.fst := by
  induction found with
  | nil => exact ⟨rfl, rfl, rfl⟩
  | cons m rest ih =>
    obtain ⟨m1, m2⟩ := m
    by_cases hskip : SplitSamples.skipSample (SplitSamples.cleanData m2) = true
    · simp [SplitSamples.extractSamples, hskip, List.filter, ih.1, ih.2.1, ih.2.2]
    · simp at hskip
      simp [SplitSamples.extractSamples, hskip, List.filter, ih.1, ih.2.1, ih.2.2]

/-! ## The claims -/

/-- C1 counterexample: on the one-byte buffer `[0x00]` the hex encoder
produces `0x00`, which has 4 characters, not the claimed
`4 * len(buffer) - 1 = 3`. -/
theorem hexEncoder_length_counterexample :
    (hexLine [(0 : Byte)]).length ≠ 4 * ([(0 : Byte)] : List Byte).length - 1 := by
  decide

/-- C1 (amended): for every non-empty byte buffer the hex encoder renders each
byte as exactly two uppercase hex digits prefixed with `0x`, joins the entries
by commas with no trailing separator and no line breaks, and the total output
length is `4 * len(buffer) + (len(buffer) - 1)` characters, i.e.
`5 * len(buffer) - 1` — not `4 * len(buffer) - 1`. -/
theorem hexEncoder_contract (bytes : List Byte) (h : bytes ≠ []) :
    (hexLine bytes).length = 4 * bytes.length + (bytes.length - 1)
    ∧ (∀ b : Byte, (hexByte b).length = 4
        ∧ (hexByte b).data.take 2 = ['0', 'x']
        ∧ ∀ c ∈ (hexByte b).data.drop 2, c ∈ ("0123456789ABCDEF").data)
    ∧ (∀ c ∈ (hexLine bytes).data, c ≠ '\n')
    ∧ (hexLine bytes).data.getLast? ≠ some ',' := by
  refine ⟨hexLine_length bytes h, ?_, hexLine_no_newline bytes, hexLine_last_not_comma bytes h⟩
  intro b
  refine ⟨hexByte_length b, rfl, ?_⟩
  intro c hc
  have hdrop : (hexByte b).data.drop 2
      = [hexDigitChar (b.val / 16), hexDigitChar (b.val % 16)] := rfl
  rw [hdrop] at hc
  simp only [List.mem_cons, List.not_mem_nil, or_false] at hc
  rcases hc with rfl | rfl
  · exact hexDigitChar_mem _ (byte_div_lt b)
  · exact hexDigitChar_mem _ (byte_mod_lt b)

/-- C1 witness: the two-byte buffer `[0x00, 0xAB]` satisfies the amended
contract; in particular its listing `0x00,0xAB` has `4 * 2 + 1 = 9`
characters. -/
theorem hexEncoder_contract_witness :
    ([(0 : Byte), (171 : Byte)] : List Byte) ≠ []
    ∧ (hexLine [(0 : Byte), (171 : Byte)]).length = 4 * 2 + (2 - 1) :=
  ⟨by decide, (hexEncoder_contract [(0 : Byte), (171 : Byte)] (by decide)).1⟩

/-- A mono 16-bit uncompressed WAV at 1 frame/s with a single frame
(two zero bytes). -/
def exWav : WavFile :=
  ⟨1, 2, "NONE", 1, 1, [0, 0]⟩

/-- C2 counterexample: on a valid mono/16-bit/uncompressed WAV with frame rate
1 and 1 total frame, processed with `max_seconds = 20`, the converter produces
`0x00,0x00` with 9 characters, while the claimed formula
`4 * min(rate * max_seconds, total_frames * 2) - 1` gives `4 * 2 - 1 = 7`. -/
theorem converter_length_counterexample :
    Convert.processFile exWav 20 = .ok ("0x00,0x00")
    ∧ ("0x00,0x00").length ≠ 4 * min (exWav.framerate * 20) (exWav.nframes * 2) - 1 := by
  constructor
  · rfl
  · decide

/-- C2 (amended): for every valid mono, 16-bit, uncompressed WAV input the
converter succeeds and, provided at least one frame is read, its listing has
exactly `10 * min(rate * max_seconds, total_frames) - 1` characters — the
converter reads `min(rate * max_seconds, total_frames)` frames, i.e. twice as
many bytes, and each byte costs the 4 characters `0xHH` plus a joining comma,
minus the single missing final comma — with each byte rendered as uppercase
`0xHH`. -/
theorem converter_output_length (w : WavFile) (ms : Nat)
    (h1 : w.nchannels = 1) (h2 : w.sampwidth = 2) (h3 : w.comptype = "NONE")
    (hd : w.data.length = w.nframes * 2)
    (hpos : 0 < min (w.framerate * ms) w.nframes) :
    Convert.processFile w ms
      = .ok (hexLine (readframes w (Convert.framesToRead w ms)))
    ∧ (hexLine (readframes w (Convert.framesToRead w ms))).length
      = 10 * min (w.framerate * ms) w.nframes - 1
    ∧ (∀ b : Byte, (hexByte b).data.take 2 = ['0', 'x']
        ∧ ∀ c ∈ (hexByte b).data.drop 2, c ∈ ("0123456789ABCDEF").data) := by
  have hm : min (w.framerate * ms) w.nframes ≤ w.nframes := Nat.min_le_right _ _
  have hlen : (readframes w (Convert.framesToRead w ms)).length
      = 2 * min (w.framerate * ms) w.nframes := by
    rw [readframes, List.length_take, Convert.framesToRead, h1, h2, hd]
    omega
  refine ⟨?_, ?_, ?_⟩
  · simp [Convert.processFile, h1, h2, h3]
  · have hne : readframes w (Convert.framesToRead w ms) ≠ [] := by
      intro hnil
      rw [hnil] at hlen
      simp only [List.length_nil] at hlen
      omega
    rw [hexLine_length _ hne, hlen]
    omega
  · intro b
    refine ⟨rfl, ?_⟩
    intro c hc
    have hdrop : (hexByte b).data.drop 2
        = [hexDigitChar (b.val / 16), hexDigitChar (b.val % 16)] := rfl
    rw [hdrop] at hc
    simp only [List.mem_cons, List.not_mem_nil, or_false] at hc
    rcases hc with rfl | rfl
    · exact hexDigitChar_mem _ (byte_div_lt b)
    · exact hexDigitChar_mem _ (byte_mod_lt b)

/-- C2 witness: the valid WAV `exWav` processed with `max_seconds = 20` reads
`min(20, 1) = 1` frame and its listing has `10 * 1 - 1 = 9` characters. -/
theorem converter_output_length_witness :
    exWav.nchannels = 1 ∧ exWav.sampwidth = 2 ∧ exWav.comptype = "NONE"
    ∧ exWav.data.length = exWav.nframes * 2
    ∧ 0 < min (exWav.framerate * 20) exWav.nframes
    ∧ (hexLine (readframes exWav (Convert.framesToRead exWav 20))).length
        = 10 * min (exWav.framerate * 20) exWav.nframes - 1 :=
  ⟨rfl, rfl, rfl, rfl, by decide,
    (converter_output_length exWav 20 rfl rfl rfl rfl (by decide)).2.1⟩

/-- C3: for every valid WAV the number of frames read is
`min(frame_rate * max_seconds, total_frames)` (so the byte count read is that
many whole frames, never more than the data holds); and when `total_frames`
is below `rate * max_seconds` the conversion succeeds with a listing covering
the entire data — no padding, no failure. -/
theorem frames_read_eq_min (w : WavFile) (ms : Nat)
    (h1 : w.nchannels = 1) (h2 : w.sampwidth = 2) (h3 : w.comptype = "NONE")
    (hd : w.data.length = w.nframes * (w.nchannels * w.sampwidth)) :
    Convert.framesToRead w ms = min (w.framerate * ms) w.nframes
    ∧ (readframes w (Convert.framesToRead w ms)).length
      = Convert.framesToRead w ms * (w.nchannels * w.sampwidth)
    ∧ (w.nframes < w.framerate * ms →
        Convert.processFile w ms = .ok (hexLine w.data)) := by
  refine ⟨rfl, ?_, ?_⟩
  · rw [readframes, List.length_take, hd, Convert.framesToRead, h1, h2]
    have : min (w.framerate * ms) w.nframes ≤ w.nframes := Nat.min_le_right _ _
    omega
  · intro hlt
    have hall : readframes w (Convert.framesToRead w ms) = w.data := by
      rw [readframes, Convert.framesToRead, Nat.min_eq_right (Nat.le_of_lt hlt)]
      exact List.take_of_length_le (by rw [hd])
    simp [Convert.processFile, h1, h2, h3, hall]

/-- C3 witness: a valid WAV with rate 2 and 3 frames (6 bytes), processed with
`max_seconds = 20`: `3 < 40`, so the whole data is converted. -/
theorem frames_read_eq_min_witness :
    (⟨1, 2, "NONE", 2, 3, [0, 0, 0, 0, 0, 0]⟩ : WavFile).nframes
        < (⟨1, 2, "NONE", 2, 3, [0, 0, 0, 0, 0, 0]⟩ : WavFile).framerate * 20
    ∧ Convert.processFile (⟨1, 2, "NONE", 2, 3, [0, 0, 0, 0, 0, 0]⟩ : WavFile) 20
        = .ok (hexLine (⟨1, 2, "NONE", 2, 3, [0, 0, 0, 0, 0, 0]⟩ : WavFile).data) :=
  ⟨by decide,
    (frames_read_eq_min (⟨1, 2, "NONE", 2, 3, [0, 0, 0, 0, 0, 0]⟩ : WavFile) 20
      rfl rfl rfl rfl).2.2 (by decide)⟩

/-- C4: the extraction loop keeps exactly the matches whose cleaned payload
passes the skip test (not empty, not whitespace-only, no placeholder marker):
the valid names, the emitted artifacts and the skip notices are the
filter/map images of the match list. On the blob declaring `sample1` with two
real bytes and `sample2` with a placeholder payload, an artifact is emitted
for `sample1` only, `sample2` is skipped with a notice, and the master index
built from the valid names mentions `sample1`'s include line but never the
string `sample2`. -/
theorem splitter_drops_empty_and_placeholder :
    (∀ found : List (String × String),
      (SplitSamples.extractSamples found).validSamples
        = (found.filter
            (fun m => ! SplitSamples.skipSample (SplitSamples.cleanData m.2))).map Prod.fst
      ∧ (SplitSamples.extractSamples found).artifacts.map Prod.fst
        = (found.filter
            (fun m => ! SplitSamples.skipSample (SplitSamples.cleanData m.2))).map Prod.fst
      ∧ (SplitSamples.extractSamples found).skipped
        = (found.filter
            (fun m => SplitSamples.skipSample (SplitSamples.cleanData m.2))).map Prod.fst)
    ∧ SplitSamples.skipSample (SplitSamples.cleanData (" placeholder ")) = true
    ∧ SplitSamples.skipSample (SplitSamples.cleanData ("0x01, 0x02")) = false
    ∧ (SplitSamples.extractSamples SplitSamples.exampleMatches).validSamples = ["sample1"]
    ∧ (SplitSamples.extractSamples SplitSamples.exampleMatches).artifacts.map Prod.fst
        = ["sample1"]
    ∧ (SplitSamples.extractSamples SplitSamples.exampleMatches).skipped = ["sample2"]
    ∧ SplitSamples.listContains ("#include \"sample1.h\"").data
        (SplitSamples.masterContent
          (SplitSamples.extractSamples SplitSamples.exampleMatches).validSamples).data = true
    ∧ SplitSamples.listContains ("sample2").data
        (SplitSamples.masterContent
          (SplitSamples.extractSamples SplitSamples.exampleMatches).validSamples).data
        = false :=
  ⟨extractSamples_filter, by decide, by decide, by decide, by decide, by decide,
    by decide, by decide⟩

/-- C5: whenever at least one path of a CLI batch does not exist, `main`
writes output for zero files and exits with a non-zero status — the existence
pre-check aborts the whole batch before any conversion starts. -/
theorem missing_file_blocks_batch (files : List Convert.InputFile) (ms : Nat)
    (h : ∃ f ∈ files, f.pathExists = false) :
    (Convert.main files ms).1 = [] ∧ (Convert.main files ms).2 ≠ 0 := by
  rw [Convert.main]
  by_cases hlen : files.length > Convert.MAX_FILES
  · simp [hlen]
  · have hall : files.all (fun f => f.pathExists) = false := by
      rcases h with ⟨f, hf, hfe⟩
      rw [List.all_eq_false]
      exact ⟨f, hf, by simp [hfe]⟩
    simp [hlen, hall]

/-- An existing input file backed by `exWav`. -/
def exGood : Convert.InputFile := ⟨true, exWav⟩

/-- A missing input path. -/
def exMissing : Convert.InputFile := ⟨false, exWav⟩

/-- C5 witness: a batch of an existing valid file followed by a missing one
produces no output at all and exits 1, although the first file alone would
have succeeded. -/
theorem missing_file_blocks_batch_witness :
    (∃ f ∈ [exGood, exMissing], f.pathExists = false)
    ∧ (Convert.main [exGood, exMissing] 20).1 = []
    ∧ (Convert.main [exGood, exMissing] 20).2 ≠ 0 :=
  ⟨⟨exMissing, by decide, by decide⟩,
    missing_file_blocks_batch [exGood, exMissing] 20 ⟨exMissing, by decide, by decide⟩⟩

/-- C6: any WAV whose channel count differs from 1 is rejected with the
stereo-specific error by both the CLI and the GUI converter, whatever its
sample width and compression tag. -/
theorem stereo_always_rejected (w : WavFile) (ms : Nat) (h : w.nchannels ≠ 1) :
    Convert.processFile w ms = .error .stereo
    ∧ Gui.processFile w = .error .stereo := by
  constructor
  · rw [Convert.processFile, if_pos h]
  · rw [Gui.processFile, if_pos h]

/-- C6 witness: a stereo file that is also 8-bit and compressed still gets the
stereo error, showing the stereo check fires first regardless of the other
attributes. -/
theorem stereo_always_rejected_witness :
    (⟨2, 1, "ULAW", 44100, 10, []⟩ : WavFile).nchannels ≠ 1
    ∧ Convert.processFile (⟨2, 1, "ULAW", 44100, 10, []⟩ : WavFile) 20
        = .error .stereo
    ∧ Gui.processFile (⟨2, 1, "ULAW", 44100, 10, []⟩ : WavFile) = .error .stereo :=
  ⟨by decide, stereo_always_rejected (⟨2, 1, "ULAW", 44100, 10, []⟩ : WavFile) 20 (by decide)⟩

/-- C7: a CLI batch with more than `MAX_FILES = 18` inputs aborts immediately:
no file is processed, no output is written, and the exit status is 1. -/
theorem too_many_files_aborts (files : List Convert.InputFile) (ms : Nat)
    (h : Convert.MAX_FILES < files.length) :
    Convert.main files ms = ([], 1) := by
  rw [Convert.main, if_pos h]

/-- C7 witness: a batch of 19 existing files aborts with no output and exit
status 1. -/
theorem too_many_files_aborts_witness :
    Convert.MAX_FILES < (List.replicate 19 exGood).length
    ∧ Convert.main (List.replicate 19 exGood) 20 = ([], 1) :=
  ⟨by decide, too_many_files_aborts (List.replicate 19 exGood) 20 (by decide)⟩

/-- C8: reformatting a payload of exactly 20 byte entries produces exactly two
lines: the first holds the first 16 entries and ends with a trailing comma,
the second holds the remaining 4 entries with no trailing comma appended. -/
theorem reformat_twenty_entries (hexValues : List String)
    (h : hexValues.length = 20) :
    SplitSamples.formatChunks hexValues
      = ["    " ++ pyJoin (", ") (hexValues.take 16) ++ ",",
         "    " ++ pyJoin (", ") (hexValues.drop 16)]
    ∧ (hexValues.take 16).length = 16
    ∧ (hexValues.drop 16).length = 4 := by
  have h16 : (16 : Nat) < hexValues.length := by omega
  have hdrop : (hexValues.drop 16).length = 4 := by
    rw [List.length_drop, h]
  refine ⟨?_, by rw [List.length_take]; omega, hdrop⟩
  rw [SplitSamples.formatChunks, chunkGo_of_lt hexValues [] 16 h16,
    chunkGo_of_length_le (hexValues.drop 16) [] 16 (by omega)]
  have hne : ¬ (List.reverse [] ++ hexValues.drop 16 = []) := by
    intro hnil
    simp only [List.reverse_nil, List.nil_append] at hnil
    rw [hnil] at hdrop
    simp at hdrop
  rw [if_neg hne]
  simp [SplitSamples.formatLines]

/-- C8 witness: twenty identical entries `0x00` are reformatted into a
16-entry line with trailing comma and a 4-entry line without. -/
theorem reformat_twenty_entries_witness :
    (List.replicate 20 ("0x00")).length = 20
    ∧ SplitSamples.formatChunks (List.replicate 20 ("0x00"))
      = ["    " ++ pyJoin (", ") ((List.replicate 20 ("0x00")).take 16) ++ ",",
         "    " ++ pyJoin (", ") ((List.replicate 20 ("0x00")).drop 16)] :=
  ⟨by decide, (reformat_twenty_entries (List.replicate 20 ("0x00")) (by decide)).1⟩

/-- C9 counterexample: the claim says the maximum-file-count bound is
overridable at the CLI, but the parser of `convert.py` registers no such
option — `cliOptionNames` is the complete list of its argument names and
contains no `--max-files` (only `--max-seconds` among the limits). -/
theorem config_override_counterexample :
    ("--max-files") ∉ Convert.cliOptionNames := by
  decide

/-- C9 (amended): only the maximum-seconds bound (default 20) is overridable
at the CLI, via `--max-seconds`; the maximum file count is the fixed constant
18 in the CLI as well. In the GUI variant both constants are fixed (18 and
20), and its conversion core equals the CLI core at the fixed
`MAX_SECONDS`. -/
theorem config_override_amended :
    ("--max-seconds") ∈ Convert.cliOptionNames
    ∧ ("--max-files") ∉ Convert.cliOptionNames
    ∧ Convert.MAX_FILES = 18 ∧ Convert.MAX_SECONDS = 20
    ∧ Gui.MAX_FILES = 18 ∧ Gui.MAX_SECONDS = 20
    ∧ (∀ w : WavFile, Gui.processFile w = Convert.processFile w Gui.MAX_SECONDS) :=
  ⟨by decide, by decide, rfl, rfl, rfl, rfl, fun _ => rfl⟩

/-- C10: a valid WAV from which zero bytes are read (total frame count 0)
does not fail: the converter succeeds with the empty listing, which has 0
characters. -/
theorem empty_read_success (w : WavFile) (ms : Nat)
    (h1 : w.nchannels = 1) (h2 : w.sampwidth = 2) (h3 : w.comptype = "NONE")
    (h0 : w.nframes = 0) :
    Convert.processFile w ms = .ok (hexLine [])
    ∧ hexLine [] = ""
    ∧ (hexLine []).length = 0 := by
  have hread : readframes w (Convert.framesToRead w ms) = [] := by
    rw [readframes, Convert.framesToRead, h0]
    simp
  refine ⟨?_, rfl, rfl⟩
  simp [Convert.processFile, h1, h2, h3, hread]

/-- C10 witness: a valid 44100 Hz WAV with 0 frames converts to the empty
listing without error. -/
theorem empty_read_success_witness :
    (⟨1, 2, "NONE", 44100, 0, []⟩ : WavFile).nframes = 0
    ∧ Convert.processFile (⟨1, 2, "NONE", 44100, 0, []⟩ : WavFile) 20
        = .ok (hexLine []) :=
  ⟨rfl,
    (empty_read_success (⟨1, 2, "NONE", 44100, 0, []⟩ : WavFile) 20
      rfl rfl rfl rfl).1⟩
